import Mathlib

/-!
Shallow embedding of `src/packages/cli/src/project/projectManager.ts`
(class `ProjectManager` of the Replikit CLI).

The filesystem is modelled as an explicit record of the files the class
touches; every operation is a pure function from a `ProjectManager` value
and an `FsState` to a result carrying the new state, a trace of the write
events performed (in order), and an optional error.  Fallible reads
(`readJSON`, `mkdir` on an existing directory, package-manager process
failures) are modelled by returning the error together with the state
reached so far, since the source performs no rollback.

Collaborators that live in this repository but outside `src/`
(`ConfigManager`, the package-manager controller, `ModuleManager`) are
modelled from the spec; each such definition is marked in its doc comment.
-/

namespace Replikit

/-- Splits a character list on the slash character. -/
def splitOnSlash : List Char → List (List Char)
  | [] => [[]]
  | c :: rest =>
    let r := splitOnSlash rest
    if c = '/' then [] :: r
    else
      match r with
      | [] => [[c]]
      | s :: ss => (c :: s) :: ss

/-- Node path.basename: the last nonempty path component, or the input
itself when there is none. -/
def basename (p : String) : String :=
  match ((splitOnSlash p.toList).filter (fun s => s ≠ [])).getLast? with
  | some s => String.mk s
  | none => p

/-- The tsconfig `paths` map: an ordered association list from a scope key
to a list of glob patterns, mirroring a JSON object literal. -/
def PathsMap := List (String × List String)
deriving DecidableEq, Repr, Inhabited

/-- First value stored under a key, as JSON object key lookup. -/
def PathsMap.lookupKey : PathsMap → String → Option (List String)
  | [], _ => none
  | (k, v) :: rest, key => if k = key then some v else PathsMap.lookupKey rest key

/-- JavaScript object assignment: replace the value in place when the key
is present, otherwise append the new entry at the end.  This is the
semantics of the spread-merge `\x7b ...old, key: value \x7d` per key. -/
def PathsMap.assign : PathsMap → String → List String → PathsMap
  | [], key, v => [(key, v)]
  | (k, w) :: rest, key, v =>
    if k = key then (k, v) :: rest else (k, w) :: PathsMap.assign rest key v

/-- The `compilerOptions` object written by `init` (projectManager.ts,
tsconfig literal). -/
structure CompilerOptions where
  target : String
  module : String
  moduleResolution : String
  baseUrl : String
  strict : Bool
  paths : PathsMap
deriving DecidableEq, Repr

/-- The path-mapping file `tsconfig.json`. -/
structure Tsconfig where
  compilerOptions : CompilerOptions
  includeGlobs : List String
deriving DecidableEq, Repr

/-- The package manifest `package.json` as owned by the package-manager
controller (spec section 6 file format). -/
structure PackageManifest where
  name : String
  isPrivate : Bool
  dependencies : List (String × String)
  devDependencies : List (String × String)
deriving DecidableEq, Repr

/-- The slice of a linked repository package.json that projectManager.ts
reads (`PackageConfig` with its `name` field). -/
structure PackageConfig where
  name : String
deriving DecidableEq, Repr

/-- The workspace metadata `lerna.json` written by `addLerna`. -/
structure LernaConfig where
  version : String
  npmClient : String
  useWorkspaces : Option Bool
deriving DecidableEq, Repr

/-- Package-manager variant discriminant (`PMType`): variant A is npm,
variant B is yarn. -/
inductive PMType
  | Npm
  | Yarn
deriving DecidableEq, Repr

/-- Errors propagated to the caller (spec section 7 taxonomy; the core
catches nothing). -/
inductive FsError
  | mkdirFailed
  | manifestExists
  | fileNotFound
  | packageManagerError
deriving DecidableEq, Repr

/-- Write events, in the order the operation performs them. -/
inductive Event
  | ensureRootDir
  | mkdirModules
  | writeTsconfig
  | writeManifest
  | writeConfigFile
  | writeLerna
  | pmInstall (names : List String) (dev : Bool)
  | moduleInit (name : String)
deriving DecidableEq, Repr

/-- A linked external repository as visible on disk: its package.json
(`none` when absent or unreadable) and the directory names under its
`modules` folder. -/
structure ExternalRepo where
  packageJson : Option PackageConfig
  moduleDirs : List String
deriving DecidableEq, Repr

/-- Lookup of a linked repository by its relative path under `external`. -/
def lookupRepo : List (String × ExternalRepo) → String → Option ExternalRepo
  | [], _ => none
  | (k, r) :: rest, key => if k = key then some r else lookupRepo rest key

/-- The on-disk state a `ProjectManager` manipulates, keyed from the
project root: whether the root and the `modules` directory exist, the
contents of each file it writes, the linked external repositories and the
local module directories. -/
structure FsState where
  rootExists : Bool
  modulesDirExists : Bool
  tsconfigFile : Option Tsconfig
  manifestFile : Option PackageManifest
  configFile : Option (List String)
  lernaFile : Option LernaConfig
  external : List (String × ExternalRepo)
  localModuleDirs : List String
deriving DecidableEq, Repr

/-- An empty filesystem: nothing exists yet. -/
def FsState.empty : FsState :=
  { rootExists := false, modulesDirExists := false, tsconfigFile := none,
    manifestFile := none, configFile := none, lernaFile := none,
    external := [], localModuleDirs := [] }

/-- Modelled from the spec (src does not contain configManager.ts):
`ConfigManager` owns the declared-module set, kept in insertion order. -/
structure ConfigManager where
  modules : List String
deriving DecidableEq, Repr

/-- Modelled from the spec: `new ConfigManager()` / `configManager.init()`
reset to an empty declared-module set. -/
def ConfigManager.empty : ConfigManager := ⟨[]⟩

/-- Modelled from the spec: `checkModule` is a membership test. -/
def ConfigManager.checkModule (c : ConfigManager) (fullName : String) : Bool :=
  c.modules.contains fullName

/-- Modelled from the spec: `addModule` inserts if absent, no-op when the
name is already present. -/
def ConfigManager.addModule (c : ConfigManager) (fullName : String) : ConfigManager :=
  if c.modules.contains fullName then c else ⟨c.modules ++ [fullName]⟩

/-- Modelled from the spec: `serialize` produces the persisted document
representing the declared-module set; we keep the set itself as the
document. -/
def ConfigManager.serialize (c : ConfigManager) : List String :=
  c.modules

/-- The `ProjectManager` fields set by its constructor. -/
structure ProjectManager where
  root : String
  name : String
  externalPath : String
  configManager : ConfigManager
deriving DecidableEq, Repr

/-- The constructor: `name = basename(root)`,
`externalPath = join(root, "external")`, fresh `ConfigManager`. -/
def ProjectManager.create (root : String) : ProjectManager :=
  { root := root, name := basename root,
    externalPath := root ++ "/external",
    configManager := ConfigManager.empty }

/-- Result of one orchestrator operation: new manager (its in-memory
configuration), new filesystem, ordered write trace, optional error. -/
structure OpResult where
  pm : ProjectManager
  fs : FsState
  trace : List Event
  error : Option FsError
deriving Repr

/-- Modelled from the spec (src does not contain moduleManager.ts):
`ModuleManager` carries the module name and its fully-qualified name
derived from the project scope. -/
structure ModuleManager where
  name : String
  fullName : String
deriving DecidableEq, Repr

/-- `getModule`: pure construction of a `ModuleManager` bound to this
project. -/
def ProjectManager.getModule (pm : ProjectManager) (name : String) : ModuleManager :=
  { name := name, fullName := "@" ++ pm.name ++ "/" ++ name }

/-- Modelled from the spec: `module.init()` performs the on-disk
initialization of the module directory. -/
def ModuleManager.initModule (m : ModuleManager) (fs : FsState) : FsState × List Event :=
  ({ fs with localModuleDirs :=
      if fs.localModuleDirs.contains m.name then fs.localModuleDirs
      else fs.localModuleDirs ++ [m.name] },
   [Event.moduleInit m.name])

/-- The tsconfig object literal written by `init` (projectManager.ts lines
63 to 77), seeded with the two path entries for the project scope. -/
def initialTsconfig (name : String) : Tsconfig :=
  { compilerOptions :=
      { target := "es2019", module := "commonjs", moduleResolution := "node",
        baseUrl := "modules", strict := true,
        paths := [("@" ++ name ++ "/*", ["*/src"]),
                  ("@" ++ name ++ "/*/typings", ["*/typings"])] },
    includeGlobs := ["replikit.config.ts", "modules/**/*.ts"] }

/-- `init`: reset the configuration, ensure the root directory, `mkdir`
the modules folder (plain mkdir: fails when it already exists), write the
tsconfig, `pm.init(name, true)` followed by `pm.save()` (modelled from the
spec: fails with ManifestExistsError when a manifest file already exists,
otherwise writes the manifest), then `saveConfig()`. -/
def ProjectManager.init (pm0 : ProjectManager) (fs0 : FsState) : OpResult :=
  let pm := { pm0 with configManager := ConfigManager.empty }
  let step1 :=
    if fs0.rootExists then (fs0, ([] : List Event))
    else ({ fs0 with rootExists := true }, [Event.ensureRootDir])
  let fs := step1.1
  let tr := step1.2
  if fs.modulesDirExists then
    { pm := pm, fs := fs, trace := tr, error := some FsError.mkdirFailed }
  else
    let fs := { fs with modulesDirExists := true }
    let tr := tr ++ [Event.mkdirModules]
    let fs := { fs with tsconfigFile := some (initialTsconfig pm.name) }
    let tr := tr ++ [Event.writeTsconfig]
    if fs.manifestFile.isSome then
      { pm := pm, fs := fs, trace := tr, error := some FsError.manifestExists }
    else
      let fs := { fs with
        manifestFile := some ({ name := pm.name, isPrivate := true,
                                dependencies := [], devDependencies := [] } : PackageManifest) }
      let tr := tr ++ [Event.writeManifest]
      let fs := { fs with configFile := some pm.configManager.serialize }
      { pm := pm, fs := fs, trace := tr ++ [Event.writeConfigFile], error := none }

/-- Modelled from the spec: `pm.install(names, dev)` records the given
dependency names into the manifest on success (version strings abstracted
as latest) and fails with PackageManagerError otherwise; whether the
underlying process succeeds is the `installOk` parameter. -/
def ProjectManager.install (pm : ProjectManager) (names : List String) (dev : Bool)
    (installOk : Bool) (fs : FsState) : OpResult :=
  if installOk then
    { pm := pm,
      fs := { fs with manifestFile := fs.manifestFile.map (fun m =>
        if dev then
          { m with devDependencies := m.devDependencies ++ names.map (fun n => (n, "latest")) }
        else
          { m with dependencies := m.dependencies ++ names.map (fun n => (n, "latest")) }) },
      trace := [Event.pmInstall names dev], error := none }
  else
    { pm := pm, fs := fs, trace := [Event.pmInstall names dev],
      error := some FsError.packageManagerError }

/-- `addLerna`: install lerna as a dev dependency, then write `lerna.json`
whose shape depends on `pm.type` (yarn adds `useWorkspaces: true`). -/
def ProjectManager.addLerna (pm : ProjectManager) (pmType : PMType)
    (installOk : Bool) (fs : FsState) : OpResult :=
  let r := pm.install ["lerna"] true installOk fs
  match r.error with
  | some _ => r
  | none =>
    let cfg : LernaConfig :=
      match pmType with
      | PMType.Yarn => { version := "0.0.0", npmClient := "yarn", useWorkspaces := some true }
      | PMType.Npm => { version := "0.0.0", npmClient := "npm", useWorkspaces := none }
    { r with fs := { r.fs with lernaFile := some cfg },
             trace := r.trace ++ [Event.writeLerna] }

/-- The spread-merge performed by `addExternalRepo` (projectManager.ts
lines 113 to 117): the existing `paths` entries, then the two new scope
entries assigned over them. -/
def mergedTsconfig (ts : Tsconfig) (name path : String) : Tsconfig :=
  let newPaths :=
    (ts.compilerOptions.paths.assign
        ("@" ++ name ++ "/*")
        ["../external/" ++ path ++ "/modules/*/src"]).assign
      ("@" ++ name ++ "/*/typings")
      ["../external/" ++ path ++ "/modules/*/typings"]
  { ts with compilerOptions := { ts.compilerOptions with paths := newPaths } }

/-- `addExternalRepo`: read the linked repository package.json, read the
tsconfig, spread-merge the two new scope entries over the existing
`paths`, write the tsconfig back.  A failed read propagates with no
write. -/
def ProjectManager.addExternalRepo (pm : ProjectManager) (path : String)
    (fs : FsState) : OpResult :=
  match lookupRepo fs.external path with
  | none => { pm := pm, fs := fs, trace := [], error := some FsError.fileNotFound }
  | some repo =>
    match repo.packageJson with
    | none => { pm := pm, fs := fs, trace := [], error := some FsError.fileNotFound }
    | some pkg =>
      match fs.tsconfigFile with
      | none => { pm := pm, fs := fs, trace := [], error := some FsError.fileNotFound }
      | some ts =>
        { pm := pm,
          fs := { fs with tsconfigFile := some (mergedTsconfig ts pkg.name path) },
          trace := [Event.writeTsconfig], error := none }

/-- `getExternalModuleNames`: read the linked repository package.json,
list its `modules` directory, return each entry as a scoped name. -/
def ProjectManager.getExternalModuleNames (pm : ProjectManager) (path : String)
    (fs : FsState) : Except FsError (List String) :=
  match lookupRepo fs.external path with
  | none => Except.error FsError.fileNotFound
  | some repo =>
    match repo.packageJson with
    | none => Except.error FsError.fileNotFound
    | some pkg => Except.ok (repo.moduleDirs.map (fun x => "@" ++ pkg.name ++ "/" ++ x))

/-- `createModule`: construct the module, run its on-disk initialization,
and only when not yet declared add it to the configuration and persist;
the module is returned either way. -/
def ProjectManager.createModule (pm : ProjectManager) (name : String)
    (fs : FsState) : OpResult × ModuleManager :=
  let m := pm.getModule name
  let step := m.initModule fs
  let fs := step.1
  let tr := step.2
  if pm.configManager.checkModule m.fullName then
    ({ pm := pm, fs := fs, trace := tr, error := none }, m)
  else
    let cm := pm.configManager.addModule m.fullName
    let pm2 := { pm with configManager := cm }
    ({ pm := pm2, fs := { fs with configFile := some cm.serialize },
       trace := tr ++ [Event.writeConfigFile], error := none }, m)

/-- `addLocalModules`: add each name to the declared-module set, persist
once after the batch. -/
def ProjectManager.addLocalModules (pm : ProjectManager) (names : List String)
    (fs : FsState) : OpResult :=
  let cm := names.foldl ConfigManager.addModule pm.configManager
  { pm := { pm with configManager := cm },
    fs := { fs with configFile := some cm.serialize },
    trace := [Event.writeConfigFile], error := none }

/-- `addModules`: `install` then `addLocalModules`; an install failure
propagates before any declaration is made. -/
def ProjectManager.addModules (pm : ProjectManager) (names : List String)
    (dev : Bool) (installOk : Bool) (fs : FsState) : OpResult :=
  let r := pm.install names dev installOk fs
  match r.error with
  | some _ => r
  | none =>
    let r2 := r.pm.addLocalModules names r.fs
    { r2 with trace := r.trace ++ r2.trace }

/-! Helper definitions used by the specification statements. -/

/-- The path-mapping keys that a call `addExternalRepo p` itself
re-specifies: the scope key and the typings scope key of the linked
repository, when its package.json is readable. -/
def respecifiedKeys (fs : FsState) (p : String) : List String :=
  match (lookupRepo fs.external p).bind (fun r => r.packageJson) with
  | some pkg => ["@" ++ pkg.name ++ "/*", "@" ++ pkg.name ++ "/*/typings"]
  | none => []

/-- A glob value in the path-mapping file is resolved relative to the
compiler baseUrl.  The baseUrl written by `init` is the single segment
`modules`, so a value points at the root-relative target `t` exactly when
it is written `../t` (the leading parent segment cancels the baseUrl). -/
def pointsAtFromModulesBaseUrl (value target : String) : Prop :=
  value = "../" ++ target

/-- Within the trace `tr`, event `b` never occurs before the first
occurrence of `a` (in particular, if `b` occurs at all, some `a` precedes
it). -/
def occursOnlyAfter (a b : Event) : List Event → Bool
  | [] => true
  | e :: rest => if e = b then false else if e = a then true else occursOnlyAfter a b rest

/-- The concrete scenario of the spec: a fresh project rooted at
`/tmp/proj`, initialized on an empty filesystem. -/
def tmpProjInit : OpResult :=
  (ProjectManager.create "/tmp/proj").init FsState.empty

/-! Association-list lemmas for the JSON-object `paths` map. -/

theorem PathsMap.lookupKey_assign (m : PathsMap) (key k : String) (v : List String) :
    (m.assign key v).lookupKey k = if k = key then some v else m.lookupKey k := by
  induction m with
  | nil =>
    by_cases h : k = key
    · subst h; simp [PathsMap.assign, PathsMap.lookupKey]
    · simp [PathsMap.assign, PathsMap.lookupKey, h, Ne.symm h]
  | cons hd tl ih =>
    obtain ⟨a, w⟩ := hd
    by_cases h1 : a = key <;> by_cases h2 : a = k <;> by_cases h3 : k = key <;>
      simp_all [PathsMap.assign, PathsMap.lookupKey]

theorem PathsMap.isSome_lookupKey_assign (m : PathsMap) (key k : String) (v : List String) :
    ((m.assign key v).lookupKey k).isSome
      = ((m.lookupKey k).isSome || decide (k = key)) := by
  rw [PathsMap.lookupKey_assign]
  by_cases h : k = key <;> simp [h]

/-! Branch equations for `addExternalRepo`. -/

theorem ProjectManager.addExternalRepo_eq_of_found (pm : ProjectManager) (p : String)
    (fs : FsState) (repo : ExternalRepo) (pkg : PackageConfig) (ts : Tsconfig)
    (hrepo : lookupRepo fs.external p = some repo)
    (hpkg : repo.packageJson = some pkg)
    (hts : fs.tsconfigFile = some ts) :
    pm.addExternalRepo p fs =
      { pm := pm,
        fs := { fs with tsconfigFile := some (mergedTsconfig ts pkg.name p) },
        trace := [Event.writeTsconfig], error := none } := by
  simp only [ProjectManager.addExternalRepo, hrepo, hpkg, hts]

theorem ProjectManager.addExternalRepo_eq_of_unreadable (pm : ProjectManager) (p : String)
    (fs : FsState)
    (h : (lookupRepo fs.external p).bind (fun r => r.packageJson) = none) :
    pm.addExternalRepo p fs =
      { pm := pm, fs := fs, trace := [], error := some FsError.fileNotFound } := by
  rcases hrepo : lookupRepo fs.external p with _ | repo
  · simp only [ProjectManager.addExternalRepo, hrepo]
  · rw [hrepo] at h
    have h2 : repo.packageJson = none := h
    simp only [ProjectManager.addExternalRepo, hrepo, h2]

/-! Claim theorems. -/

/-- C1: for a project rooted at /tmp/proj, after init() completes the
package manifest has name "proj" (the basename of the root) and private
true, a modules directory exists, and the path-mapping paths map contains
exactly the two keys for the project scope with the documented values. -/
theorem init_tmp_proj_scenario :
    tmpProjInit.error = none
    ∧ tmpProjInit.fs.manifestFile =
        some { name := "proj", isPrivate := true,
               dependencies := [], devDependencies := [] }
    ∧ tmpProjInit.fs.modulesDirExists = true
    ∧ tmpProjInit.fs.tsconfigFile.map (fun ts => ts.compilerOptions.paths) =
        some [("@proj/*", ["*/src"]), ("@proj/*/typings", ["*/typings"])] := by
  refine ⟨?_, ?_, ?_, ?_⟩ <;> decide

/-- C2: every key present in the paths map before an addExternalRepo call
is still present afterwards, and its value is unchanged unless the call
itself re-specifies that key. -/
theorem addExternalRepo_preserves_unrelated_keys (pm : ProjectManager) (p : String)
    (fs : FsState) (ts : Tsconfig) (k : String) (v : List String)
    (hts : fs.tsconfigFile = some ts)
    (hk : ts.compilerOptions.paths.lookupKey k = some v) :
    ∃ ts2, (pm.addExternalRepo p fs).fs.tsconfigFile = some ts2
      ∧ (ts2.compilerOptions.paths.lookupKey k).isSome = true
      ∧ (k ∉ respecifiedKeys fs p →
          ts2.compilerOptions.paths.lookupKey k = some v) := by
  rcases hread : (lookupRepo fs.external p).bind (fun r => r.packageJson) with _ | pkg
  · rw [ProjectManager.addExternalRepo_eq_of_unreadable pm p fs hread]
    exact ⟨ts, hts, by simp [hk], fun _ => hk⟩
  · rcases hrepo : lookupRepo fs.external p with _ | repo
    · rw [hrepo] at hread
      exact absurd hread (by simp)
    · rw [hrepo] at hread
      have hpkg : repo.packageJson = some pkg := hread
      rw [ProjectManager.addExternalRepo_eq_of_found pm p fs repo pkg ts hrepo hpkg hts]
      refine ⟨mergedTsconfig ts pkg.name p, rfl, ?_, ?_⟩
      · simp only [mergedTsconfig, PathsMap.lookupKey_assign]
        split_ifs <;> simp [hk]
      · intro hmem
        have hkeys : respecifiedKeys fs p
            = ["@" ++ pkg.name ++ "/*", "@" ++ pkg.name ++ "/*/typings"] := by
          simp only [respecifiedKeys, hrepo, Option.some_bind', hpkg]
        rw [hkeys] at hmem
        simp only [List.mem_cons, List.not_mem_nil, or_false, not_or] at hmem
        simp only [mergedTsconfig, PathsMap.lookupKey_assign,
          if_neg hmem.1, if_neg hmem.2, hk]

/-- C3: a successful addExternalRepo(p) call leaves the paths map with the
scope key and the typings scope key of the linked repository mapped to
values that point (relative to the baseUrl modules) at
external/p/modules/*/src and external/p/modules/*/typings, and the set of
present keys grows by exactly those two keys. -/
theorem addExternalRepo_adds_two_scope_entries (pm : ProjectManager) (p : String)
    (fs : FsState) (repo : ExternalRepo) (pkg : PackageConfig) (ts : Tsconfig)
    (hrepo : lookupRepo fs.external p = some repo)
    (hpkg : repo.packageJson = some pkg)
    (hts : fs.tsconfigFile = some ts) :
    ∃ ts2, (pm.addExternalRepo p fs).fs.tsconfigFile = some ts2
      ∧ (pm.addExternalRepo p fs).error = none
      ∧ ts2.compilerOptions.paths.lookupKey ("@" ++ pkg.name ++ "/*")
          = some ["../external/" ++ p ++ "/modules/*/src"]
      ∧ ts2.compilerOptions.paths.lookupKey ("@" ++ pkg.name ++ "/*/typings")
          = some ["../external/" ++ p ++ "/modules/*/typings"]
      ∧ pointsAtFromModulesBaseUrl ("../external/" ++ p ++ "/modules/*/src")
          ("external/" ++ p ++ "/modules/*/src")
      ∧ pointsAtFromModulesBaseUrl ("../external/" ++ p ++ "/modules/*/typings")
          ("external/" ++ p ++ "/modules/*/typings")
      ∧ ∀ k, ((ts2.compilerOptions.paths.lookupKey k).isSome = true
          ↔ ((ts.compilerOptions.paths.lookupKey k).isSome = true
             ∨ k = "@" ++ pkg.name ++ "/*"
             ∨ k = "@" ++ pkg.name ++ "/*/typings")) := by
  have htypings : ("@" ++ pkg.name ++ "/*/typings" : String)
      ≠ "@" ++ pkg.name ++ "/*" := by
    intro h
    have hlen := congrArg String.length h
    simp only [String.length_append,
      show ("/*/typings" : String).length = 10 from rfl,
      show ("/*" : String).length = 2 from rfl] at hlen
    omega
  rw [ProjectManager.addExternalRepo_eq_of_found pm p fs repo pkg ts hrepo hpkg hts]
  refine ⟨mergedTsconfig ts pkg.name p, rfl, rfl, ?_, ?_, ?_, ?_, ?_⟩
  · simp [mergedTsconfig, PathsMap.lookupKey_assign, Ne.symm htypings]
  · simp [mergedTsconfig, PathsMap.lookupKey_assign]
  · unfold pointsAtFromModulesBaseUrl
    rw [← String.append_assoc, ← String.append_assoc]
    rfl
  · unfold pointsAtFromModulesBaseUrl
    rw [← String.append_assoc, ← String.append_assoc]
    rfl
  · intro k
    simp only [mergedTsconfig, PathsMap.lookupKey_assign]
    by_cases h1 : k = "@" ++ pkg.name ++ "/*/typings" <;>
      by_cases h2 : k = "@" ++ pkg.name ++ "/*" <;>
      simp [h1, h2, Ne.symm htypings]

/-- Witness for C2 at a concrete state: the pre-existing project scope key
survives an addExternalRepo call untouched. -/
theorem addExternalRepo_preserves_unrelated_keys_witness :
    ∃ ts2, ((ProjectManager.create "/tmp/proj").addExternalRepo "lib"
        { FsState.empty with
          tsconfigFile := some (initialTsconfig "proj"),
          external := [("lib", { packageJson := some { name := "ext" },
                                 moduleDirs := ["a"] })] }).fs.tsconfigFile = some ts2
      ∧ (ts2.compilerOptions.paths.lookupKey "@proj/*").isSome = true
      ∧ ("@proj/*" ∉ respecifiedKeys
            { FsState.empty with
              tsconfigFile := some (initialTsconfig "proj"),
              external := [("lib", { packageJson := some { name := "ext" },
                                     moduleDirs := ["a"] })] } "lib" →
          ts2.compilerOptions.paths.lookupKey "@proj/*" = some ["*/src"]) :=
  addExternalRepo_preserves_unrelated_keys
    (ProjectManager.create "/tmp/proj") "lib" _ (initialTsconfig "proj")
    "@proj/*" ["*/src"] rfl rfl

/-- Witness for C3 at a concrete state. -/
theorem addExternalRepo_adds_two_scope_entries_witness :
    ∃ ts2, ((ProjectManager.create "/tmp/proj").addExternalRepo "lib"
        { FsState.empty with
          tsconfigFile := some (initialTsconfig "proj"),
          external := [("lib", { packageJson := some { name := "ext" },
                                 moduleDirs := ["a"] })] }).fs.tsconfigFile = some ts2
      ∧ ((ProjectManager.create "/tmp/proj").addExternalRepo "lib"
        { FsState.empty with
          tsconfigFile := some (initialTsconfig "proj"),
          external := [("lib", { packageJson := some { name := "ext" },
                                 moduleDirs := ["a"] })] }).error = none
      ∧ ts2.compilerOptions.paths.lookupKey ("@" ++ "ext" ++ "/*")
          = some ["../external/" ++ "lib" ++ "/modules/*/src"]
      ∧ ts2.compilerOptions.paths.lookupKey ("@" ++ "ext" ++ "/*/typings")
          = some ["../external/" ++ "lib" ++ "/modules/*/typings"]
      ∧ pointsAtFromModulesBaseUrl ("../external/" ++ "lib" ++ "/modules/*/src")
          ("external/" ++ "lib" ++ "/modules/*/src")
      ∧ pointsAtFromModulesBaseUrl ("../external/" ++ "lib" ++ "/modules/*/typings")
          ("external/" ++ "lib" ++ "/modules/*/typings")
      ∧ ∀ k, ((ts2.compilerOptions.paths.lookupKey k).isSome = true
          ↔ (((initialTsconfig "proj").compilerOptions.paths.lookupKey k).isSome = true
             ∨ k = "@" ++ "ext" ++ "/*"
             ∨ k = "@" ++ "ext" ++ "/*/typings")) :=
  addExternalRepo_adds_two_scope_entries
    (ProjectManager.create "/tmp/proj") "lib" _
    { packageJson := some { name := "ext" }, moduleDirs := ["a"] }
    { name := "ext" } (initialTsconfig "proj") rfl rfl rfl

/-- A filesystem holding one linked external repository under relative
path r, with declared package name foo and a single module directory
bar. -/
def extRepoFs : FsState :=
  { FsState.empty with
    external := [("r", { packageJson := some { name := "foo" }, moduleDirs := ["bar"] })] }

/-- C4: calling createModule twice with the same name leaves the declared
module set containing the fully-qualified name exactly once, the
configuration file is written at most once across the two calls (the
second call performs no configuration write), and both calls return the
module. -/
theorem createModule_twice_idempotent (pm : ProjectManager) (fs : FsState) (n : String)
    (h : pm.configManager.modules.count ("@" ++ pm.name ++ "/" ++ n) ≤ 1) :
    ((pm.createModule n fs).1.pm.createModule n
        (pm.createModule n fs).1.fs).1.pm.configManager.modules.count
        ("@" ++ pm.name ++ "/" ++ n) = 1
    ∧ ((pm.createModule n fs).1.trace
        ++ ((pm.createModule n fs).1.pm.createModule n
              (pm.createModule n fs).1.fs).1.trace).count Event.writeConfigFile ≤ 1
    ∧ (((pm.createModule n fs).1.pm.createModule n
          (pm.createModule n fs).1.fs).1.trace).count Event.writeConfigFile = 0
    ∧ (pm.createModule n fs).2 = pm.getModule n
    ∧ ((pm.createModule n fs).1.pm.createModule n
        (pm.createModule n fs).1.fs).2 = pm.getModule n := by
  by_cases hmem : ("@" ++ pm.name ++ "/" ++ n) ∈ pm.configManager.modules
  · have hcount : pm.configManager.modules.count ("@" ++ pm.name ++ "/" ++ n) = 1 := by
      have hpos := List.count_pos_iff.mpr hmem
      omega
    simp [ProjectManager.createModule, ProjectManager.getModule,
      ModuleManager.initModule, ConfigManager.checkModule, hmem, hcount]
  · have hcount0 : pm.configManager.modules.count ("@" ++ pm.name ++ "/" ++ n) = 0 :=
      List.count_eq_zero.mpr hmem
    simp [ProjectManager.createModule, ProjectManager.getModule,
      ModuleManager.initModule, ConfigManager.checkModule, ConfigManager.addModule,
      ConfigManager.serialize, hmem, hcount0, List.count_append]

/-- Witness for C4 at a concrete state: a fresh project and a module
named core. -/
theorem createModule_twice_idempotent_witness :
    (((ProjectManager.create "/tmp/proj").createModule "core" FsState.empty).1.pm.createModule "core"
        ((ProjectManager.create "/tmp/proj").createModule "core" FsState.empty).1.fs).1.pm.configManager.modules.count
        ("@" ++ (ProjectManager.create "/tmp/proj").name ++ "/" ++ "core") = 1
    ∧ (((ProjectManager.create "/tmp/proj").createModule "core" FsState.empty).1.trace
        ++ ((((ProjectManager.create "/tmp/proj").createModule "core" FsState.empty).1.pm.createModule "core"
              ((ProjectManager.create "/tmp/proj").createModule "core" FsState.empty).1.fs).1.trace)).count
        Event.writeConfigFile ≤ 1
    ∧ (((((ProjectManager.create "/tmp/proj").createModule "core" FsState.empty).1.pm.createModule "core"
          ((ProjectManager.create "/tmp/proj").createModule "core" FsState.empty).1.fs).1.trace)).count
        Event.writeConfigFile = 0
    ∧ ((ProjectManager.create "/tmp/proj").createModule "core" FsState.empty).2
        = (ProjectManager.create "/tmp/proj").getModule "core"
    ∧ (((ProjectManager.create "/tmp/proj").createModule "core" FsState.empty).1.pm.createModule "core"
        ((ProjectManager.create "/tmp/proj").createModule "core" FsState.empty).1.fs).2
        = (ProjectManager.create "/tmp/proj").getModule "core" :=
  createModule_twice_idempotent (ProjectManager.create "/tmp/proj") FsState.empty "core"
    (by decide)

/-- C5: when the install step of addModules fails with
PackageManagerError, the declared module set and the persisted
configuration file are unchanged: install completes before any
declaration is made. -/
theorem addModules_install_failure_is_atomic (pm : ProjectManager)
    (names : List String) (dev : Bool) (fs : FsState) :
    (pm.addModules names dev false fs).error = some FsError.packageManagerError
    ∧ (pm.addModules names dev false fs).pm.configManager = pm.configManager
    ∧ (pm.addModules names dev false fs).fs.configFile = fs.configFile := by
  refine ⟨rfl, rfl, rfl⟩

/-- C6 counterexample: the returned names carry the scope prefix
character, so they are not formatted externalPackageName/dirName: with
declared package name foo and module directory bar the result is
@foo/bar, not foo/bar. -/
theorem getExternalModuleNames_not_bare_package_name :
    (ProjectManager.create "/tmp/proj").getExternalModuleNames "r" extRepoFs
      = Except.ok ["@foo/bar"]
    ∧ ("@foo/bar" : String) ≠ "foo/bar" := by
  refine ⟨rfl, by decide⟩

/-- C6 amended: getExternalModuleNames returns exactly one scoped name per
module directory under the linked repository, each formatted as
@externalPackageName/dirName. -/
theorem getExternalModuleNames_scoped (pm : ProjectManager) (p : String)
    (fs : FsState) (repo : ExternalRepo) (pkg : PackageConfig)
    (hrepo : lookupRepo fs.external p = some repo)
    (hpkg : repo.packageJson = some pkg) :
    pm.getExternalModuleNames p fs
      = Except.ok (repo.moduleDirs.map (fun d => "@" ++ pkg.name ++ "/" ++ d))
    ∧ (repo.moduleDirs.map (fun d => "@" ++ pkg.name ++ "/" ++ d)).length
        = repo.moduleDirs.length := by
  constructor
  · simp only [ProjectManager.getExternalModuleNames, hrepo, hpkg]
  · simp

/-- Witness for the amended C6 at a concrete state. -/
theorem getExternalModuleNames_scoped_witness :
    (ProjectManager.create "/tmp/proj").getExternalModuleNames "r" extRepoFs
      = Except.ok ((["bar"] : List String).map (fun d => "@" ++ "foo" ++ "/" ++ d))
    ∧ ((["bar"] : List String).map (fun d => "@" ++ "foo" ++ "/" ++ d)).length
        = (["bar"] : List String).length :=
  getExternalModuleNames_scoped (ProjectManager.create "/tmp/proj") "r" extRepoFs
    { packageJson := some { name := "foo" }, moduleDirs := ["bar"] }
    { name := "foo" } rfl rfl

/-- C7: addLerna writes workspace metadata with useWorkspaces true for the
yarn variant and without that field for the npm variant, and the metadata
is only written after a successful install (an install failure leaves the
file unchanged; on success the install event precedes the write). -/
theorem addLerna_variant_metadata (pm : ProjectManager) (fs : FsState) :
    ((pm.addLerna PMType.Yarn true fs).fs.lernaFile
        = some { version := "0.0.0", npmClient := "yarn", useWorkspaces := some true })
    ∧ ((pm.addLerna PMType.Npm true fs).fs.lernaFile
        = some { version := "0.0.0", npmClient := "npm", useWorkspaces := none })
    ∧ (∀ t, (pm.addLerna t false fs).error = some FsError.packageManagerError
          ∧ (pm.addLerna t false fs).fs.lernaFile = fs.lernaFile)
    ∧ (∀ t, (pm.addLerna t true fs).trace
          = [Event.pmInstall ["lerna"] true, Event.writeLerna]) := by
  refine ⟨rfl, rfl, fun t => ⟨rfl, rfl⟩, fun t => ?_⟩
  cases t <;> rfl

/-- C8: within a single init call, the configuration file write never
occurs before the tsconfig write or before the manifest write: the
configuration file is never the first of the three to exist. -/
theorem init_writes_config_after_manifest_and_tsconfig (pm : ProjectManager)
    (fs : FsState) :
    occursOnlyAfter Event.writeTsconfig Event.writeConfigFile (pm.init fs).trace = true
    ∧ occursOnlyAfter Event.writeManifest Event.writeConfigFile (pm.init fs).trace = true := by
  by_cases h1 : fs.rootExists <;> by_cases h2 : fs.modulesDirExists <;>
    cases h3 : fs.manifestFile <;>
    simp [ProjectManager.init, occursOnlyAfter, h1, h2, h3]

/-- C9: when a modules directory already exists under the root, init
raises a filesystem error before writing any file: the tsconfig, the
manifest and the configuration file are unchanged, and the only possible
prior side effect is creation of the root directory itself. -/
theorem init_fails_before_writes_when_modules_exists (pm : ProjectManager)
    (fs : FsState) (h : fs.modulesDirExists = true) :
    (pm.init fs).error = some FsError.mkdirFailed
    ∧ (pm.init fs).fs.tsconfigFile = fs.tsconfigFile
    ∧ (pm.init fs).fs.manifestFile = fs.manifestFile
    ∧ (pm.init fs).fs.configFile = fs.configFile
    ∧ (pm.init fs).fs = { fs with rootExists := true } := by
  by_cases h1 : fs.rootExists <;> cases fs <;> simp_all [ProjectManager.init]

/-- Witness for C9: a filesystem where only the modules directory already
exists. -/
theorem init_fails_before_writes_when_modules_exists_witness :
    ((ProjectManager.create "/tmp/proj").init
        { FsState.empty with modulesDirExists := true }).error = some FsError.mkdirFailed
    ∧ ((ProjectManager.create "/tmp/proj").init
        { FsState.empty with modulesDirExists := true }).fs.tsconfigFile
        = ({ FsState.empty with modulesDirExists := true } : FsState).tsconfigFile
    ∧ ((ProjectManager.create "/tmp/proj").init
        { FsState.empty with modulesDirExists := true }).fs.manifestFile
        = ({ FsState.empty with modulesDirExists := true } : FsState).manifestFile
    ∧ ((ProjectManager.create "/tmp/proj").init
        { FsState.empty with modulesDirExists := true }).fs.configFile
        = ({ FsState.empty with modulesDirExists := true } : FsState).configFile
    ∧ ((ProjectManager.create "/tmp/proj").init
        { FsState.empty with modulesDirExists := true }).fs
        = { ({ FsState.empty with modulesDirExists := true } : FsState) with
            rootExists := true } :=
  init_fails_before_writes_when_modules_exists (ProjectManager.create "/tmp/proj")
    { FsState.empty with modulesDirExists := true } rfl

/-- C10: when the linked repository manifest is absent or unreadable,
addExternalRepo raises an error and leaves the filesystem, in particular
the path-mapping file, unchanged. -/
theorem addExternalRepo_unreadable_manifest_is_atomic (pm : ProjectManager)
    (p : String) (fs : FsState)
    (h : (lookupRepo fs.external p).bind (fun r => r.packageJson) = none) :
    (pm.addExternalRepo p fs).error = some FsError.fileNotFound
    ∧ (pm.addExternalRepo p fs).fs = fs
    ∧ (pm.addExternalRepo p fs).fs.tsconfigFile = fs.tsconfigFile := by
  rw [ProjectManager.addExternalRepo_eq_of_unreadable pm p fs h]
  exact ⟨rfl, rfl, rfl⟩

/-- Witness for C10: an empty filesystem holds no linked repository, so
the read fails and nothing changes. -/
theorem addExternalRepo_unreadable_manifest_is_atomic_witness :
    ((ProjectManager.create "/tmp/proj").addExternalRepo "r" FsState.empty).error
        = some FsError.fileNotFound
    ∧ ((ProjectManager.create "/tmp/proj").addExternalRepo "r" FsState.empty).fs
        = FsState.empty
    ∧ ((ProjectManager.create "/tmp/proj").addExternalRepo "r" FsState.empty).fs.tsconfigFile
        = FsState.empty.tsconfigFile :=
  addExternalRepo_unreadable_manifest_is_atomic (ProjectManager.create "/tmp/proj")
    "r" FsState.empty rfl

end Replikit
